import Mathlib

/-!
Verification development for the inbound-request security gate of the
Evalmatch repository.  The embedded code lives in
`app/api/security_fixed.py` (the enhanced gate: pattern catalogs,
`sanitize_input`, `validate_api_key`, `validate_jwt_token`, `RateLimiter`,
`SecurityManager`) and `app/api/security_simple.py` (the simpler variant
with a recursive percent-decode loop).

Texts are modelled as `List Char`.  Python's `re` patterns used by the
catalogs only need literals, single-character classes, `\b`, `\s`, `\w`,
bounded repetition, alternation of literals and `$`; a small executable
matcher for exactly these constructs is defined below.  `re.IGNORECASE`
is modelled by lower-casing the haystack before a search (the catalog
patterns are written in lower case; every character class appearing in
the catalogs is closed under case).  `urllib.parse.unquote` is modelled
for single-byte percent escapes, which covers all ASCII inputs used here.
-/

deriving instance DecidableEq for Except

namespace SecurityGate

/-- Python `\w` (ASCII part): letters, digits and underscore. -/
def isWordChar (c : Char) : Bool := c.isAlphanum || c = '_'

/-- Python `\s` (ASCII part): space, tab, newline, carriage return,
vertical tab, form feed. -/
def isSpaceChar (c : Char) : Bool :=
  c = ' ' || c = '\t' || c = '\n' || c = '\r' ||
  c = Char.ofNat 11 || c = Char.ofNat 12

/-- Hexadecimal digit, either case (as accepted by `unquote`). -/
def isHexDigitC (c : Char) : Bool :=
  c.isDigit || ('a' ≤ c && c ≤ 'f') || ('A' ≤ c && c ≤ 'F')

/-- Value of a hexadecimal digit. -/
def hexVal (c : Char) : Nat :=
  if c.isDigit then c.toNat - 48
  else if 'a' ≤ c && c ≤ 'f' then c.toNat - 87
  else c.toNat - 55

/-- `str.lower()` on a list of characters. -/
def toLowerL (l : List Char) : List Char := l.map Char.toLower

/-- `urllib.parse.unquote`, modelled for single-byte percent escapes:
each `%hh` with two hex digits becomes the character with code
`16*h₁+h₂`; any other `%` is kept literally.  (Python additionally
UTF-8-decodes multi-byte sequences; the inputs considered here are
ASCII, where the two agree.) -/
def unquoteL : List Char → List Char
  | [] => []
  | [c] => [c]
  | [c, d] => [c, d]
  | c :: d :: e :: rest =>
    if c = '%' && isHexDigitC d && isHexDigitC e then
      Char.ofNat (16 * hexVal d + hexVal e) :: unquoteL rest
    else c :: unquoteL (d :: e :: rest)

/-- `pat` occurs as a contiguous substring of `s`. -/
def containsSub (s pat : List Char) : Bool :=
  match s with
  | [] => pat.isEmpty
  | _ :: rest => pat.isPrefixOf s || containsSub rest pat

/-! ### A small regular-expression matcher

Only the constructs used by the shipped catalogs are represented.  All
repetition operators in the catalogs apply to single-character classes,
so `star`/`plus`/`repn` take a class; this keeps the matcher structural.
`search` tries a match starting at every position, like `re.search`.
A position is a pair (character immediately before the position, if any;
remaining suffix), which is what `\b` and `$` need. -/

inductive Rx where
  | lit : List Char → Rx
  | cls : (Char → Bool) → Rx
  | seq : Rx → Rx → Rx
  | alt : Rx → Rx → Rx
  | star : (Char → Bool) → Rx
  | plus : (Char → Bool) → Rx
  | repn : (Char → Bool) → Nat → Rx
  | wordB : Rx
  | eol : Rx

/-- A match position: the character just before it (none at the start of
the haystack) and the remaining suffix. -/
abbrev RxPos := Option Char × List Char

/-- Consume one character of class `p`. -/
def clsStep (p : Char → Bool) : RxPos → List RxPos
  | (_, []) => []
  | (_, c :: rest) => if p c then [(some c, rest)] else []

/-- All positions reachable by consuming zero or more characters of
class `p` (greedy and lazy repetition agree for match existence). -/
def starPositions (p : Char → Bool) : Option Char → List Char → List RxPos
  | prev, [] => [(prev, [])]
  | prev, c :: rest =>
    (prev, c :: rest) :: (if p c then starPositions p (some c) rest else [])

/-- Consume exactly `n` characters of class `p`. -/
def clsRep (p : Char → Bool) : Nat → RxPos → List RxPos
  | 0, pos => [pos]
  | n + 1, pos => (clsStep p pos).flatMap (clsRep p n)

/-- The character preceding the position reached after consuming `cs`. -/
def lastOr (cs : List Char) (prev : Option Char) : Option Char :=
  match cs.getLast? with
  | some c => some c
  | none => prev

/-- All positions reachable by matching `r` at the given position. -/
def Rx.run : Rx → RxPos → List RxPos
  | .lit cs, (prev, s) =>
    if cs.isPrefixOf s then [(lastOr cs prev, s.drop cs.length)] else []
  | .cls p, pos => clsStep p pos
  | .seq a b, pos => (a.run pos).flatMap b.run
  | .alt a b, pos => a.run pos ++ b.run pos
  | .star p, (prev, s) => starPositions p prev s
  | .plus p, pos => (clsStep p pos).flatMap (fun q => starPositions p q.1 q.2)
  | .repn p n, pos => clsRep p n pos
  | .wordB, (prev, s) =>
    let before := (prev.map isWordChar).getD false
    let after := (s.head?.map isWordChar).getD false
    if before ≠ after then [(prev, s)] else []
  | .eol, (prev, s) => if s = [] || s = ['\n'] then [(prev, s)] else []

/-- `re.search` scaffold: try a match at every start position. -/
def searchAux (r : Rx) : Option Char → List Char → Bool
  | prev, [] => !(r.run (prev, [])).isEmpty
  | prev, c :: rest =>
    !(r.run (prev, c :: rest)).isEmpty || searchAux r (some c) rest

/-- Does `r` match anywhere in `s`?  (`re.search(r, s) is not None`.) -/
def rxSearch (r : Rx) (s : List Char) : Bool := searchAux r none s

/-- Literal pattern from a string. -/
def L (s : String) : Rx := .lit s.data

/-- Sequence of pattern pieces. -/
def rseq : List Rx → Rx
  | [] => .lit []
  | [r] => r
  | r :: rs => .seq r (rseq rs)

/-- Alternation of literal words, as in `(select|insert|...)`. -/
def altLits : List String → Rx
  | [] => .lit []
  | [s] => .lit s.data
  | s :: rest => .alt (.lit s.data) (altLits rest)

/-- Python `.` without `DOTALL`: any character but newline. -/
def dotC (c : Char) : Bool := c ≠ '\n'

/-- The apostrophe character (several SQL patterns use it). -/
def quoteC : Char := Char.ofNat 39

/-! ### The shipped catalogs

`security_fixed.DANGEROUS_PATTERNS` and `security_fixed.SQL_PATTERNS`,
compiled with `re.IGNORECASE`; literals are written lower-case and the
haystack is lower-cased before searching, which is equivalent for these
ASCII patterns.  Each entry is annotated with the source pattern. -/

/-- The `%3E` (URL-encoded `>`) XSS catalog entry. -/
def percent3eRx : Rx := L "%3e"

/-- The `\bunion\s+select\b` SQL catalog entry (first in its catalog). -/
def unionSelectRx : Rx :=
  rseq [.wordB, L "union", .plus isSpaceChar, L "select", .wordB]

def DANGEROUS_PATTERNS : List Rx := [
  -- <script\b[^>]*>
  rseq [L "<script", .wordB, .star (· ≠ '>'), L ">"],
  -- </script>
  L "</script>",
  -- <script[^>]*>[\s\S]*?</script>
  rseq [L "<script", .star (· ≠ '>'), L ">", .star (fun _ => true), L "</script>"],
  -- javascript:
  L "javascript:",
  -- vbscript:
  L "vbscript:",
  -- on\w+\s*=
  rseq [L "on", .plus isWordChar, .star isSpaceChar, L "="],
  -- on\w+\s*:
  rseq [L "on", .plus isWordChar, .star isSpaceChar, L ":"],
  -- <iframe
  L "<iframe",
  -- <object
  L "<object",
  -- <embed
  L "<embed",
  -- <form
  L "<form",
  -- <meta\b[^>]*http-equiv
  rseq [L "<meta", .wordB, .star (· ≠ '>'), L "http-equiv"],
  -- <link\b[^>]*stylesheet
  rseq [L "<link", .wordB, .star (· ≠ '>'), L "stylesheet"],
  -- data:text/html
  L "data:text/html",
  -- data:text/javascript
  L "data:text/javascript",
  -- data:application/javascript
  L "data:application/javascript",
  -- data:image/svg\+xml
  L "data:image/svg+xml",
  -- data:[^;]*;base64
  rseq [L "data:", .star (· ≠ ';'), L ";base64"],
  -- expression\s*\(
  rseq [L "expression", .star isSpaceChar, L "("],
  -- eval\s*\(
  rseq [L "eval", .star isSpaceChar, L "("],
  -- setTimeout\s*\(
  rseq [L "settimeout", .star isSpaceChar, L "("],
  -- setInterval\s*\(
  rseq [L "setinterval", .star isSpaceChar, L "("],
  -- Function\s*\(
  rseq [L "function", .star isSpaceChar, L "("],
  -- @import
  L "@import",
  -- url\s*\(
  rseq [L "url", .star isSpaceChar, L "("],
  -- behavior\s*:
  rseq [L "behavior", .star isSpaceChar, L ":"],
  -- -moz-binding
  L "-moz-binding",
  -- &lt;script
  L "&lt;script",
  -- &lt;/script&gt;
  L "&lt;/script&gt;",
  -- &#x[0-9a-fA-F]+;
  rseq [L "&#x", .plus isHexDigitC, L ";"],
  -- &#[0-9]+;
  rseq [L "&#", .plus Char.isDigit, L ";"],
  -- %3C%73%63%72%69%70%74  (URL encoded <script)
  L "%3c%73%63%72%69%70%74",
  -- %3E  (URL encoded >)
  percent3eRx,
  -- onerror\s*=
  rseq [L "onerror", .star isSpaceChar, L "="],
  -- onload\s*=
  rseq [L "onload", .star isSpaceChar, L "="],
  -- alert\s*\(
  rseq [L "alert", .star isSpaceChar, L "("]]

def SQL_PATTERNS : List Rx := [
  -- \bunion\s+select\b
  unionSelectRx,
  -- \bselect\s+.*\bfrom\b
  rseq [.wordB, L "select", .plus isSpaceChar, .star dotC, .wordB, L "from", .wordB],
  -- \binsert\s+into\b
  rseq [.wordB, L "insert", .plus isSpaceChar, L "into", .wordB],
  -- \bupdate\s+.*\bset\b
  rseq [.wordB, L "update", .plus isSpaceChar, .star dotC, .wordB, L "set", .wordB],
  -- \bdelete\s+from\b
  rseq [.wordB, L "delete", .plus isSpaceChar, L "from", .wordB],
  -- \bdrop\s+table\b
  rseq [.wordB, L "drop", .plus isSpaceChar, L "table", .wordB],
  -- \balter\s+table\b
  rseq [.wordB, L "alter", .plus isSpaceChar, L "table", .wordB],
  -- \bcreate\s+table\b
  rseq [.wordB, L "create", .plus isSpaceChar, L "table", .wordB],
  -- \btruncate\s+table\b
  rseq [.wordB, L "truncate", .plus isSpaceChar, L "table", .wordB],
  -- \bexec\s*\(
  rseq [.wordB, L "exec", .star isSpaceChar, L "("],
  -- \bexecute\s*\(
  rseq [.wordB, L "execute", .star isSpaceChar, L "("],
  -- ;\s*(select|insert|update|delete|drop|alter|create|truncate|exec|execute)
  rseq [L ";", .star isSpaceChar,
        altLits ["select", "insert", "update", "delete", "drop", "alter",
                 "create", "truncate", "exec", "execute"]],
  -- \bor\s+1\s*=\s*1\b
  rseq [.wordB, L "or", .plus isSpaceChar, L "1", .star isSpaceChar, L "=",
        .star isSpaceChar, L "1", .wordB],
  -- \band\s+1\s*=\s*1\b
  rseq [.wordB, L "and", .plus isSpaceChar, L "1", .star isSpaceChar, L "=",
        .star isSpaceChar, L "1", .wordB],
  -- \bor\s+.*\s*=\s*.*\b
  rseq [.wordB, L "or", .plus isSpaceChar, .star dotC, .star isSpaceChar,
        L "=", .star isSpaceChar, .star dotC, .wordB],
  -- Source line 105 is a malformed string literal (a stray quote splits
  -- it); the evident intended pattern is \';\s*(select|insert|update|delete|drop|alter),
  -- i.e. an apostrophe, a semicolon, optional space, then a statement keyword.
  rseq [.lit [quoteC, ';'], .star isSpaceChar,
        altLits ["select", "insert", "update", "delete", "drop", "alter"]],
  -- \bwaitfor\s+delay\b
  rseq [.wordB, L "waitfor", .plus isSpaceChar, L "delay", .wordB],
  -- \bbenchmark\s*\(
  rseq [.wordB, L "benchmark", .star isSpaceChar, L "("],
  -- \bsleep\s*\(
  rseq [.wordB, L "sleep", .star isSpaceChar, L "("],
  -- \bpg_sleep\s*\(
  rseq [.wordB, L "pg_sleep", .star isSpaceChar, L "("],
  -- --\s*$
  rseq [L "--", .star isSpaceChar, .eol],
  -- /\*.*\*/
  rseq [L "/*", .star dotC, L "*/"],
  -- \bxp_cmdshell\b
  rseq [.wordB, L "xp_cmdshell", .wordB],
  -- \bsp_executesql\b
  rseq [.wordB, L "sp_executesql", .wordB],
  -- \b0x[0-9a-fA-F]+\b
  rseq [.wordB, L "0x", .plus isHexDigitC, .wordB],
  -- \\u[0-9a-fA-F]{4}
  rseq [.lit ['\\', 'u'], .repn isHexDigitC 4],
  -- \\x[0-9a-fA-F]{2}
  rseq [.lit ['\\', 'x'], .repn isHexDigitC 2],
  -- \bif\s*\(.*,\s*sleep\s*\(
  rseq [.wordB, L "if", .star isSpaceChar, L "(", .star dotC, L ",",
        .star isSpaceChar, L "sleep", .star isSpaceChar, L "("],
  -- \bcase\s+when\s+.*\s+then\s+sleep\s*\(
  rseq [.wordB, L "case", .plus isSpaceChar, L "when", .plus isSpaceChar,
        .star dotC, .plus isSpaceChar, L "then", .plus isSpaceChar,
        L "sleep", .star isSpaceChar, L "("]]

/-! `security_simple.XSS_PATTERNS` and `security_simple.SQL_PATTERNS`. -/

def XSS_PATTERNS_SIMPLE : List Rx := [
  -- <script[^>]*>
  rseq [L "<script", .star (· ≠ '>'), L ">"],
  -- </script>
  L "</script>",
  -- javascript:
  L "javascript:",
  -- on\w+\s*=
  rseq [L "on", .plus isWordChar, .star isSpaceChar, L "="],
  -- <iframe
  L "<iframe",
  -- <object
  L "<object",
  -- <embed
  L "<embed",
  -- onerror\s*=
  rseq [L "onerror", .star isSpaceChar, L "="],
  -- onload\s*=
  rseq [L "onload", .star isSpaceChar, L "="],
  -- alert\s*\(
  rseq [L "alert", .star isSpaceChar, L "("],
  -- eval\s*\(
  rseq [L "eval", .star isSpaceChar, L "("],
  -- expression\s*\(
  rseq [L "expression", .star isSpaceChar, L "("]]

def SQL_PATTERNS_SIMPLE : List Rx := [
  -- \bunion\s+select\b
  rseq [.wordB, L "union", .plus isSpaceChar, L "select", .wordB],
  -- \bselect\s+.*\bfrom\b
  rseq [.wordB, L "select", .plus isSpaceChar, .star dotC, .wordB, L "from", .wordB],
  -- \binsert\s+into\b
  rseq [.wordB, L "insert", .plus isSpaceChar, L "into", .wordB],
  -- \bupdate\s+.*\bset\b
  rseq [.wordB, L "update", .plus isSpaceChar, .star dotC, .wordB, L "set", .wordB],
  -- \bdelete\s+from\b
  rseq [.wordB, L "delete", .plus isSpaceChar, L "from", .wordB],
  -- \bdrop\s+table\b
  rseq [.wordB, L "drop", .plus isSpaceChar, L "table", .wordB],
  -- \balter\s+table\b
  rseq [.wordB, L "alter", .plus isSpaceChar, L "table", .wordB],
  -- ;\s*drop\s+table
  rseq [L ";", .star isSpaceChar, L "drop", .plus isSpaceChar, L "table"],
  -- ;\s*delete\s+from
  rseq [L ";", .star isSpaceChar, L "delete", .plus isSpaceChar, L "from"],
  -- '\s*or\s*'1'\s*=\s*'1
  rseq [.lit [quoteC], .star isSpaceChar, L "or", .star isSpaceChar,
        .lit [quoteC, '1', quoteC], .star isSpaceChar, L "=",
        .star isSpaceChar, .lit [quoteC, '1']],
  -- '\s*or\s*1\s*=\s*1
  rseq [.lit [quoteC], .star isSpaceChar, L "or", .star isSpaceChar,
        L "1", .star isSpaceChar, L "=", .star isSpaceChar, L "1"],
  -- --\s*$
  rseq [L "--", .star isSpaceChar, .eol],
  -- /\*.*\*/
  rseq [L "/*", .star dotC, L "*/"]]

/-! ### Violations, events and `sanitize_input` (security_fixed) -/

/-- The `violation_type` strings used by `security_fixed`. -/
inductive ViolationType where
  | LENGTH_VIOLATION
  | XSS_VIOLATION
  | SQL_INJECTION_VIOLATION
  | JWT_VALIDATION
deriving DecidableEq, Repr

/-- `SecurityViolation(message, violation_type, original_text, field)`;
the free-text message and timestamp are not modelled. -/
structure SecurityViolation where
  violation_type : ViolationType
  original_text : List Char
deriving DecidableEq, Repr

/-- One structured record emitted by `log_security_event`: the
`event_type`, and from the `details` dict the index of the matching
pattern and the `decoded` flag (`check_text != text_lower`). -/
structure SecEvent where
  event_type : String
  pattern_index : Nat
  decoded : Bool
deriving DecidableEq, Repr

/-- Which catalog produced a hit. -/
inductive ThreatCat where
  | xss
  | sqli
deriving DecidableEq, Repr

/-- A hit: catalog, index of the first matching pattern in it, and
whether the matching variant was the decoded one. -/
structure ThreatHit where
  cat : ThreatCat
  pattern_index : Nat
  decoded : Bool
deriving DecidableEq, Repr

def catViolation : ThreatCat → ViolationType
  | .xss => .XSS_VIOLATION
  | .sqli => .SQL_INJECTION_VIOLATION

def catEventType : ThreatCat → String
  | .xss => "XSS_ATTEMPT"
  | .sqli => "SQL_INJECTION_ATTEMPT"

/-- Index of the first pattern in `pats` that matches `v`
(the inner `for pattern in ...: if pattern.search(...)` loops). -/
def firstMatchIdx : List Rx → List Char → Option Nat
  | [], _ => none
  | r :: rs, v => if rxSearch r v then some 0 else (firstMatchIdx rs v).map (· + 1)

/-- Scan one normalized variant `v`: all XSS patterns first, then all
SQL patterns, mirroring the loop order inside `sanitize_input`.
`re.IGNORECASE` is modelled by lower-casing the haystack; `text_lower`
is carried along only to compute the `decoded` event flag. -/
def scanVariant (text_lower v : List Char) : Option ThreatHit :=
  match firstMatchIdx DANGEROUS_PATTERNS (toLowerL v) with
  | some i => some ⟨.xss, i, decide (v ≠ text_lower)⟩
  | none =>
    match firstMatchIdx SQL_PATTERNS (toLowerL v) with
    | some i => some ⟨.sqli, i, decide (v ≠ text_lower)⟩
    | none => none

/-- The outer `for check_text in texts_to_check` loop: first
variant/catalog hit wins. -/
def scanVariants (text_lower : List Char) : List (List Char) → Option ThreatHit
  | [] => none
  | v :: vs =>
    match scanVariant text_lower v with
    | some h => some h
    | none => scanVariants text_lower vs

/-- `MAX_FIELD_LENGTH`, the default `max_length`. -/
def MAX_FIELD_LENGTH : Nat := 1000

/-- `security_fixed.sanitize_input`.  Returns the list of security
events emitted by the call together with its outcome: the (unmodified)
text, or the raised `SecurityViolation`.  The length check precedes the
construction of the normalized variants; on a catalog hit exactly one
event is logged before the violation is raised; on no hit the original
text is returned.  (The `try/except` around `unquote` is not modelled:
the modelled `unquoteL` is total.) -/
def sanitize_input (text : List Char) (max_length : Nat := MAX_FIELD_LENGTH) :
    List SecEvent × Except SecurityViolation (List Char) :=
  if text = [] then ([], .ok text)
  else if max_length < text.length then
    ([], .error ⟨.LENGTH_VIOLATION, text⟩)
  else
    let text_lower := toLowerL text
    let decoded_text := unquoteL text_lower
    match scanVariants text_lower [text_lower, decoded_text] with
    | some h =>
      ([⟨catEventType h.cat, h.pattern_index, h.decoded⟩],
       .error ⟨catViolation h.cat, text⟩)
    | none => ([], .ok text)

/-! ### Credential validators (security_fixed) -/

/-- The `dangerous_chars` list of `validate_api_key`:
`< > & ' " ; \n \r \t \x00`. -/
def dangerous_chars : List Char :=
  ['<', '>', '&', quoteC, '"', ';', '\n', '\r', '\t', Char.ofNat 0]

/-- `security_fixed.validate_api_key`: empty, too short/long, or any
dangerous character present means `False`. -/
def validate_api_key (api_key : List Char) : Bool :=
  if api_key = [] then false
  else if api_key.length < 8 || 128 < api_key.length then false
  else if dangerous_chars.any (fun c => api_key.contains c) then false
  else true

/-- `token.split('.')`. -/
def splitOnDot : List Char → List (List Char)
  | [] => [[]]
  | c :: rest =>
    match splitOnDot rest with
    | [] => [[]]
    | s :: ss => if c = '.' then [] :: s :: ss else (c :: s) :: ss

/-- `security_fixed.validate_jwt_token`: empty, shorter than 10, longer
than 2048, or not exactly three dot-separated parts raises; otherwise a
mock payload (not modelled) is returned. -/
def validate_jwt_token (token : List Char) : Except SecurityViolation Unit :=
  if token = [] then .error ⟨.JWT_VALIDATION, token⟩
  else if token.length < 10 then .error ⟨.JWT_VALIDATION, token⟩
  else if 2048 < token.length then .error ⟨.JWT_VALIDATION, token⟩
  else if (splitOnDot token).length ≠ 3 then .error ⟨.JWT_VALIDATION, token⟩
  else .ok ()

/-- `SecurityManager.validate_token`: `True` iff `validate_jwt_token`
does not raise. -/
def securityManager_validate_token (token : List Char) : Bool :=
  match validate_jwt_token token with
  | .ok _ => true
  | .error _ => false

/-! ### `security_simple.sanitize_input`

The simple variant scans the raw text, then URL-decodes it and, when
decoding changed something, recursively sanitizes the decoded text.  The
recursion terminates because an effective decode strictly shortens the
text (proved below as `unquoteL_length_lt`); it is embedded here with a
structural fuel argument, `length + 1` being enough fuel by that lemma
(`sanitize_simple_fuel_irrelevant` below shows any fuel beyond the
length gives the same result).  The second component counts the number
of percent-decode passes the call performed. -/

def xssSimpleHit (text : List Char) : Bool :=
  (firstMatchIdx XSS_PATTERNS_SIMPLE (toLowerL text)).isSome

def sqlSimpleHit (text : List Char) : Bool :=
  (firstMatchIdx SQL_PATTERNS_SIMPLE (toLowerL text)).isSome

def sanitizeSimpleGo : Nat → List Char → Except (List Char) (List Char) × Nat
  | 0, text => (.ok text, 0)
  | fuel + 1, text =>
    if text = [] then (.ok text, 0)
    else if xssSimpleHit text then (.error text, 0)
    else if sqlSimpleHit text then (.error text, 0)
    else
      let decoded := unquoteL text
      if decoded = text then (.ok text, 0)
      else
        let r := sanitizeSimpleGo fuel decoded
        (r.1, r.2 + 1)

/-- `security_simple.sanitize_input` with its decode-pass count. -/
def sanitize_input_simple (text : List Char) :
    Except (List Char) (List Char) × Nat :=
  sanitizeSimpleGo (text.length + 1) text

/-! ### `security_fixed.RateLimiter`

`self.requests` is a Python dict, modelled as an insertion-ordered
association list (`assocSet` updates the first matching key in place,
appending when absent, exactly dict assignment).  Timestamps are
modelled as integers. -/

structure RateLimiter where
  max_requests : Nat
  window_seconds : Int
  max_identifiers : Nat
  requests : List (String × List Int)
deriving DecidableEq, Repr

/-- `identifier in self.requests` / `self.requests[identifier]`. -/
def assocLookup : List (String × List Int) → String → Option (List Int)
  | [], _ => none
  | (k, v) :: rest, key => if k = key then some v else assocLookup rest key

/-- `self.requests[identifier] = v`: update in place, or append. -/
def assocSet : List (String × List Int) → String → List Int →
    List (String × List Int)
  | [], key, v => [(key, v)]
  | (k, w) :: rest, key, v =>
    if k = key then (key, v) :: rest else (k, w) :: assocSet rest key v

/-- `max(x[1]) if x[1] else 0`, the eviction sort key. -/
def maxOr0 : List Int → Int
  | [] => 0
  | t :: ts => ts.foldl max t

/-- One step of Python's stable `sorted(..., key=maxOr0, reverse=True)`. -/
def insertByKeyDesc (x : String × List Int) :
    List (String × List Int) → List (String × List Int)
  | [] => [x]
  | y :: ys =>
    if maxOr0 y.2 ≤ maxOr0 x.2 then x :: y :: ys else y :: insertByKeyDesc x ys

/-- Stable descending sort by most recent timestamp. -/
def sortByKeyDesc : List (String × List Int) → List (String × List Int)
  | [] => []
  | x :: xs => insertByKeyDesc x (sortByKeyDesc xs)

/-- The per-entry pruning of `_cleanup_old_requests`: keep timestamps
inside the window, drop entries that become empty. -/
def pruneEntries (window now : Int) (l : List (String × List Int)) :
    List (String × List Int) :=
  l.filterMap (fun e =>
    let valid := e.2.filter (fun rt => now - rt < window)
    if valid = [] then none else some (e.1, valid))

/-- `RateLimiter._cleanup_old_requests`.  Note the early return when the
calling identifier is not yet tracked: in that case neither the sweep
nor the eviction pass runs. -/
def cleanup_old_requests (rl : RateLimiter) (identifier : String) (now : Int) :
    RateLimiter :=
  if (assocLookup rl.requests identifier).isNone then rl
  else
    let pruned := pruneEntries rl.window_seconds now rl.requests
    let limited :=
      if rl.max_identifiers < pruned.length then
        (sortByKeyDesc pruned).take rl.max_identifiers
      else pruned
    { rl with requests := limited }

/-- `RateLimiter._get_request_count`: returns 0 untouched for an unseen
identifier, otherwise prunes the identifier's list in place and returns
its new length. -/
def get_request_count (rl : RateLimiter) (identifier : String) (now : Int) :
    Nat × RateLimiter :=
  match assocLookup rl.requests identifier with
  | none => (0, rl)
  | some ts =>
    let valid := ts.filter (fun rt => now - rt < rl.window_seconds)
    (valid.length, { rl with requests := assocSet rl.requests identifier valid })

/-- `RateLimiter.is_allowed` (`now` is passed explicitly in place of
`time.time()`): cleanup, count, reject when the count reaches
`max_requests`, otherwise record `now` and accept. -/
def is_allowed (rl : RateLimiter) (identifier : String) (now : Int) :
    Bool × RateLimiter :=
  let rl1 := cleanup_old_requests rl identifier now
  let cr := get_request_count rl1 identifier now
  if cr.1 ≥ cr.2.max_requests then (false, cr.2)
  else
    let withId :=
      if (assocLookup cr.2.requests identifier).isNone then
        cr.2.requests ++ [(identifier, [])]
      else cr.2.requests
    let appended :=
      assocSet withId identifier
        (((assocLookup withId identifier).getD []) ++ [now])
    (true, { cr.2 with requests := appended })

/-- Run a sequence of `(identifier, now)` calls, collecting results. -/
def runCalls (rl : RateLimiter) : List (String × Int) → List Bool × RateLimiter
  | [] => ([], rl)
  | (id, now) :: calls =>
    let r := is_allowed rl id now
    let rest := runCalls r.2 calls
    (r.1 :: rest.1, rest.2)

/-- A fresh limiter with the given configuration. -/
def mkRateLimiter (max_requests : Nat) (window_seconds : Int)
    (max_identifiers : Nat) : RateLimiter :=
  ⟨max_requests, window_seconds, max_identifiers, []⟩

/-- The caller's timestamp list after the cleanup sweep, pruned to the
trailing window: this is the count `is_allowed` compares with
`max_requests`. -/
def prunedOf (rl : RateLimiter) (identifier : String) (now : Int) : List Int :=
  ((assocLookup (cleanup_old_requests rl identifier now).requests
      identifier).getD []).filter
    (fun rt => now - rt < rl.window_seconds)

/-! ### Helper lemmas -/

theorem assocLookup_assocSet_self (l : List (String × List Int)) (k : String)
    (v : List Int) : assocLookup (assocSet l k v) k = some v := by
  induction l with
  | nil => simp [assocSet, assocLookup]
  | cons hd tl ih =>
    obtain ⟨k', v'⟩ := hd
    by_cases h : k' = k
    · simp [assocSet, h, assocLookup]
    · simp [assocSet, h, assocLookup, ih]

theorem assocLookup_append_single (l : List (String × List Int)) (k : String)
    (v : List Int) (h : assocLookup l k = none) :
    assocLookup (l ++ [(k, v)]) k = some v := by
  induction l with
  | nil => simp [assocLookup]
  | cons hd tl ih =>
    obtain ⟨k', v'⟩ := hd
    by_cases hk : k' = k
    · simp [assocLookup, hk] at h
    · simp [assocLookup, hk] at h ⊢
      exact ih h

theorem cleanup_max_requests (rl : RateLimiter) (identifier : String)
    (now : Int) :
    (cleanup_old_requests rl identifier now).max_requests = rl.max_requests := by
  unfold cleanup_old_requests
  split <;> rfl

theorem cleanup_window_seconds (rl : RateLimiter) (identifier : String)
    (now : Int) :
    (cleanup_old_requests rl identifier now).window_seconds =
      rl.window_seconds := by
  unfold cleanup_old_requests
  split <;> rfl

/-- A call whose pruned count has reached the quota is rejected, and the
caller's stored list after the call is exactly the pruned list: nothing
is recorded. -/
theorem is_allowed_reject (rl : RateLimiter) (identifier : String) (now : Int)
    (h : rl.max_requests ≤ (prunedOf rl identifier now).length) :
    (is_allowed rl identifier now).1 = false ∧
    (assocLookup (is_allowed rl identifier now).2.requests identifier).getD []
      = prunedOf rl identifier now := by
  cases hl : assocLookup (cleanup_old_requests rl identifier now).requests
      identifier with
  | none =>
    have hp : prunedOf rl identifier now = [] := by simp [prunedOf, hl]
    rw [hp] at h
    simp only [List.length_nil, Nat.le_zero] at h
    constructor
    · simp [is_allowed, get_request_count, hl, cleanup_max_requests, h]
    · simp [is_allowed, get_request_count, hl, cleanup_max_requests, h, hp]
  | some ts =>
    have hp : prunedOf rl identifier now =
        ts.filter (fun rt => now - rt <
          (cleanup_old_requests rl identifier now).window_seconds) := by
      simp [prunedOf, hl, cleanup_window_seconds]
    rw [hp] at h
    constructor
    · simp [is_allowed, get_request_count, hl, cleanup_max_requests, h]
    · simp [is_allowed, get_request_count, hl, cleanup_max_requests, h, hp,
        assocLookup_assocSet_self]

/-- A call whose pruned count is below the quota is accepted and `now`
is appended to the pruned list. -/
theorem is_allowed_accept (rl : RateLimiter) (identifier : String) (now : Int)
    (h : (prunedOf rl identifier now).length < rl.max_requests) :
    (is_allowed rl identifier now).1 = true ∧
    (assocLookup (is_allowed rl identifier now).2.requests identifier).getD []
      = prunedOf rl identifier now ++ [now] := by
  cases hl : assocLookup (cleanup_old_requests rl identifier now).requests
      identifier with
  | none =>
    have hp : prunedOf rl identifier now = [] := by simp [prunedOf, hl]
    rw [hp] at h
    have hnotle : ¬ rl.max_requests ≤ 0 := by omega
    constructor
    · simp [is_allowed, get_request_count, hl, cleanup_max_requests, hnotle]
    · simp [is_allowed, get_request_count, hl, cleanup_max_requests, hnotle,
        hp, assocLookup_append_single _ _ _ hl, assocLookup_assocSet_self]
  | some ts =>
    have hp : prunedOf rl identifier now =
        ts.filter (fun rt => now - rt <
          (cleanup_old_requests rl identifier now).window_seconds) := by
      simp [prunedOf, hl, cleanup_window_seconds]
    rw [hp] at h
    have hnotle : ¬ rl.max_requests ≤ (ts.filter (fun rt => now - rt <
        (cleanup_old_requests rl identifier now).window_seconds)).length := by
      omega
    constructor
    · simp [is_allowed, get_request_count, hl, cleanup_max_requests, hnotle]
    · simp [is_allowed, get_request_count, hl, cleanup_max_requests, hnotle,
        hp, assocLookup_assocSet_self]

/-- Percent-decoding never lengthens the text. -/
theorem unquoteL_length_le : ∀ l : List Char, (unquoteL l).length ≤ l.length
  | [] => by simp [unquoteL]
  | [c] => by simp [unquoteL]
  | [c, d] => by simp [unquoteL]
  | c :: d :: e :: rest => by
    by_cases h : (c = '%' && isHexDigitC d && isHexDigitC e) = true
    · have ih := unquoteL_length_le rest
      simp [unquoteL, h]
      omega
    · have ih := unquoteL_length_le (d :: e :: rest)
      simp [unquoteL, h] at ih ⊢
      omega

/-- An effective percent-decode pass strictly shortens the text. -/
theorem unquoteL_length_lt : ∀ l : List Char, unquoteL l ≠ l →
    (unquoteL l).length < l.length
  | [] => by simp [unquoteL]
  | [c] => by simp [unquoteL]
  | [c, d] => by simp [unquoteL]
  | c :: d :: e :: rest => by
    intro hne
    by_cases h : (c = '%' && isHexDigitC d && isHexDigitC e) = true
    · have ih := unquoteL_length_le rest
      simp [unquoteL, h]
      omega
    · simp only [unquoteL, h, if_false, Bool.false_eq_true] at hne ⊢
      have hsub : unquoteL (d :: e :: rest) ≠ d :: e :: rest := by
        intro he
        exact hne (by rw [he])
      have ih := unquoteL_length_lt (d :: e :: rest) hsub
      simp at ih ⊢
      omega

/-- The decode-pass count of the simple sanitizer is bounded by the
input length (with any fuel). -/
theorem sanitizeSimpleGo_passes_le :
    ∀ (fuel : Nat) (text : List Char),
      (sanitizeSimpleGo fuel text).2 ≤ text.length := by
  intro fuel
  induction fuel with
  | zero => intro text; simp [sanitizeSimpleGo]
  | succ n ih =>
    intro text
    by_cases h0 : text = []
    · simp [sanitizeSimpleGo, h0]
    · by_cases h1 : xssSimpleHit text = true
      · simp [sanitizeSimpleGo, h0, h1]
      · by_cases h2 : sqlSimpleHit text = true
        · simp [sanitizeSimpleGo, h0, h1, h2]
        · by_cases h3 : unquoteL text = text
          · simp [sanitizeSimpleGo, h0, h1, h2, h3]
          · have hlt := unquoteL_length_lt text h3
            have := ih (unquoteL text)
            simp [sanitizeSimpleGo, h0, h1, h2, h3]
            omega

/-- Any fuel beyond the input length gives the same run of the simple
sanitizer: the fuel argument is only a structural-termination device. -/
theorem sanitizeSimpleGo_fuel_irrelevant :
    ∀ (f₁ f₂ : Nat) (text : List Char), text.length < f₁ →
      text.length < f₂ → sanitizeSimpleGo f₁ text = sanitizeSimpleGo f₂ text := by
  intro f₁
  induction f₁ with
  | zero => intro f₂ text h₁ h₂; omega
  | succ a ih =>
    intro f₂ text h₁ h₂
    cases f₂ with
    | zero => omega
    | succ b =>
      by_cases h0 : text = []
      · simp [sanitizeSimpleGo, h0]
      · by_cases hx : xssSimpleHit text = true
        · simp [sanitizeSimpleGo, h0, hx]
        · by_cases hs : sqlSimpleHit text = true
          · simp [sanitizeSimpleGo, h0, hx, hs]
          · by_cases hd : unquoteL text = text
            · simp [sanitizeSimpleGo, h0, hx, hs, hd]
            · have hlt := unquoteL_length_lt text hd
              have heq := ih b (unquoteL text) (by omega) (by omega)
              simp [sanitizeSimpleGo, h0, hx, hs, hd, heq]

/-- If no variant has a catalog hit, the variant scan returns none. -/
theorem scanVariants_eq_none (text_lower : List Char)
    (vs : List (List Char)) (h : ∀ v ∈ vs, scanVariant text_lower v = none) :
    scanVariants text_lower vs = none := by
  induction vs with
  | nil => rfl
  | cons v rest ih =>
    have hv := h v (by simp)
    simp [scanVariants, hv]
    exact ih (fun w hw => h w (by simp [hw]))

/-- Substring containment is preserved by mapping a function over the
text (case folding, in particular). -/
theorem containsSub_map (f : Char → Char) (s pat : List Char)
    (h : containsSub s pat = true) :
    containsSub (s.map f) (pat.map f) = true := by
  induction s with
  | nil =>
    simp [containsSub] at h ⊢
    simp [h]
  | cons c rest ih =>
    simp only [containsSub, Bool.or_eq_true] at h
    rcases h with h | h
    · have hpre : (pat.map f).isPrefixOf ((c :: rest).map f) = true := by
        rw [List.isPrefixOf_iff_prefix] at h ⊢
        exact h.map f
      simp only [List.map_cons, containsSub, Bool.or_eq_true]
      left
      simpa using hpre
    · have := ih h
      simp [containsSub, this]

theorem searchAux_lit (pat : List Char) :
    ∀ (prev : Option Char) (s : List Char), containsSub s pat = true →
      searchAux (.lit pat) prev s = true := by
  intro prev s
  induction s generalizing prev with
  | nil =>
    intro h
    simp [containsSub, List.isEmpty_iff] at h
    subst h
    simp [searchAux, Rx.run, List.isPrefixOf]
  | cons c rest ih =>
    intro h
    simp only [containsSub, Bool.or_eq_true] at h
    simp only [searchAux, Bool.or_eq_true]
    rcases h with h | h
    · left
      simp [Rx.run, h]
    · right
      exact ih (some c) h

/-- A literal pattern is found by `rxSearch` wherever it occurs as a
substring. -/
theorem rxSearch_lit_of_containsSub (s pat : List Char)
    (h : containsSub s pat = true) : rxSearch (.lit pat) s = true :=
  searchAux_lit pat none s h

/-- If some catalog pattern matches, the scan reports a hit. -/
theorem firstMatchIdx_isSome_of_mem {r : Rx} {pats : List Rx}
    (hmem : r ∈ pats) {v : List Char} (h : rxSearch r v = true) :
    (firstMatchIdx pats v).isSome = true := by
  induction pats with
  | nil => cases hmem
  | cons p rest ih =>
    rcases List.mem_cons.mp hmem with hr | hr
    · subst hr
      simp [firstMatchIdx, h]
    · by_cases hp : rxSearch p v = true
      · simp [firstMatchIdx, hp]
      · simp [firstMatchIdx, hp]
        exact ih hr

theorem splitOnDot_ne_nil (l : List Char) : splitOnDot l ≠ [] := by
  cases l with
  | nil => simp [splitOnDot]
  | cons c rest =>
    simp only [splitOnDot]
    cases splitOnDot rest with
    | nil => simp
    | cons s ss =>
      by_cases h : c = '.' <;> simp [h]

/-- `len(token.split('.'))` is one more than the number of dots. -/
theorem splitOnDot_length (l : List Char) :
    (splitOnDot l).length = l.count '.' + 1 := by
  induction l with
  | nil => simp [splitOnDot]
  | cons c rest ih =>
    simp only [splitOnDot]
    cases hs : splitOnDot rest with
    | nil => exact absurd hs (splitOnDot_ne_nil rest)
    | cons s ss =>
      rw [hs] at ih
      by_cases h : c = '.'
      · subst h
        simp [List.count_cons] at ih ⊢
        omega
      · simp [List.count_cons, h] at ih ⊢
        omega

/-- Full characterization of `validate_api_key`. -/
theorem validate_api_key_spec (k : List Char) :
    validate_api_key k = true ↔
      (8 ≤ k.length ∧ k.length ≤ 128 ∧ ∀ c ∈ k, c ∉ dangerous_chars) := by
  unfold validate_api_key
  split_ifs with h1 h2 h3
  · subst h1
    simp
  · simp only [Bool.or_eq_true, decide_eq_true_eq] at h2
    simp only [Bool.false_eq_true, false_iff]
    rintro ⟨ha, hb, -⟩
    omega
  · simp only [List.any_eq_true, List.contains, List.elem_iff] at h3
    obtain ⟨c, hc, hck⟩ := h3
    simp only [Bool.false_eq_true, false_iff]
    rintro ⟨-, -, hall⟩
    exact hall c hck hc
  · simp only [Bool.or_eq_true, decide_eq_true_eq, not_or, not_lt] at h2
    simp only [List.any_eq_true, List.contains, List.elem_iff, not_exists,
      not_and] at h3
    simp only [true_iff]
    exact ⟨by omega, by omega, fun c hc hcd => h3 c hcd hc⟩

/-- No dangerous character is alphanumeric. -/
theorem dangerous_not_alphanum : ∀ c ∈ dangerous_chars, c.isAlphanum = false := by
  decide

/-! ### Claim theorems -/

/-- C1: the claim says `is_allowed` keeps the tracked-identifier count at
most `max_identifiers`, with least-recently-active identifiers evicted
first.  The code violates this: `_cleanup_old_requests` returns early
when the calling identifier is unseen, so the eviction pass never runs
on exactly the calls that add a new identifier.  With
`max_identifiers = 2`, three distinct identifiers with one request each
are all accepted and all three stay tracked. -/
theorem C1_identifier_bound_violated :
    (runCalls (mkRateLimiter 5 60 2) [("a", 0), ("b", 1), ("c", 2)]).1 =
      [true, true, true]
  ∧ (mkRateLimiter 5 60 2).max_identifiers <
      (runCalls (mkRateLimiter 5 60 2)
        [("a", 0), ("b", 1), ("c", 2)]).2.requests.length := by
  decide

/-- C2: with `max_requests = 3` and `window_seconds = 60`, four calls
within one second yield `[true, true, true, false]` and a call past the
window yields `true` again; in general every call prunes the caller's
list to the trailing window, a call whose pruned count has reached
`max_requests` is rejected leaving exactly the pruned list (nothing
recorded), and an accepted call appends `now` to the pruned list. -/
theorem C2_sliding_window_behavior :
    (runCalls (mkRateLimiter 3 60 10000)
        [("x", 0), ("x", 0), ("x", 0), ("x", 1), ("x", 61)]).1 =
      [true, true, true, false, true]
  ∧ (∀ (rl : RateLimiter) (identifier : String) (now : Int),
      rl.max_requests ≤ (prunedOf rl identifier now).length →
        (is_allowed rl identifier now).1 = false ∧
        (assocLookup (is_allowed rl identifier now).2.requests
            identifier).getD [] = prunedOf rl identifier now)
  ∧ (∀ (rl : RateLimiter) (identifier : String) (now : Int),
      (prunedOf rl identifier now).length < rl.max_requests →
        (is_allowed rl identifier now).1 = true ∧
        (assocLookup (is_allowed rl identifier now).2.requests
            identifier).getD [] = prunedOf rl identifier now ++ [now]) :=
  ⟨by decide, is_allowed_reject, is_allowed_accept⟩

/-- Witness for C2: a caller at quota is rejected; one below quota is
accepted. -/
theorem C2_sliding_window_behavior_witness :
    ((⟨1, 60, 10, [("x", [0])]⟩ : RateLimiter).max_requests ≤
        (prunedOf ⟨1, 60, 10, [("x", [0])]⟩ "x" 1).length ∧
      (is_allowed ⟨1, 60, 10, [("x", [0])]⟩ "x" 1).1 = false)
  ∧ ((prunedOf ⟨2, 60, 10, [("x", [0])]⟩ "x" 1).length <
        (⟨2, 60, 10, [("x", [0])]⟩ : RateLimiter).max_requests ∧
      (is_allowed ⟨2, 60, 10, [("x", [0])]⟩ "x" 1).1 = true) :=
  ⟨⟨by decide, (C2_sliding_window_behavior.2.1 _ "x" 1 (by decide)).1⟩,
   ⟨by decide, (C2_sliding_window_behavior.2.2 _ "x" 1 (by decide)).1⟩⟩

/-- C4 counterexample: the simple sanitizer decodes `%2525253c` four
times (no constant cap such as 3 bounds the passes) before accepting the
fully decoded text. -/
theorem C4_unbounded_decode_counterexample :
    3 < (sanitize_input_simple "%2525253c".data).2
  ∧ (sanitize_input_simple "%2525253c".data).1 = .ok "<".data := by
  decide

/-- C4 amended: decoding terminates on every input, but the bound is the
input length, not a fixed constant: an effective decode pass strictly
shortens the text, the pass count is at most the input length, and any
fuel beyond the length runs the recursion to its natural end. -/
theorem C4_decode_passes_amended :
    (∀ text : List Char, unquoteL text ≠ text →
        (unquoteL text).length < text.length)
  ∧ (∀ text : List Char, (sanitize_input_simple text).2 ≤ text.length)
  ∧ (∀ (text : List Char) (fuel : Nat), text.length < fuel →
        sanitizeSimpleGo fuel text = sanitize_input_simple text) :=
  ⟨unquoteL_length_lt,
   fun text => sanitizeSimpleGo_passes_le _ text,
   fun text fuel h =>
     sanitizeSimpleGo_fuel_irrelevant fuel (text.length + 1) text h
       (Nat.lt_succ_self _)⟩

/-- Witness for C4 (amended) at concrete inputs. -/
theorem C4_decode_passes_amended_witness :
    (unquoteL "%41".data).length < ("%41".data).length
  ∧ (sanitize_input_simple "%41".data).2 ≤ ("%41".data).length
  ∧ sanitizeSimpleGo 7 "%41".data = sanitize_input_simple "%41".data :=
  ⟨C4_decode_passes_amended.1 _ (by decide),
   C4_decode_passes_amended.2.1 _,
   C4_decode_passes_amended.2.2 _ 7 (by decide)⟩

/-- C6: an over-long text is rejected with a `LENGTH_VIOLATION` carrying
the original text, with no event emitted and no scan consulted — the
result is fixed before any pattern scanning or decoding. -/
theorem C6_length_check_first :
    ∀ (text : List Char) (max_length : Nat), max_length < text.length →
      sanitize_input text max_length =
        ([], .error ⟨.LENGTH_VIOLATION, text⟩) := by
  intro t m h
  have ht : t ≠ [] := by
    intro e
    subst e
    simp at h
  simp [sanitize_input, ht, h]

/-- Witness for C6: a text full of XSS payload is still rejected as
`LENGTH_VIOLATION` when over-long. -/
theorem C6_length_check_first_witness :
    sanitize_input "<script>alert(1)</script>".data 5 =
      ([], .error ⟨.LENGTH_VIOLATION, "<script>alert(1)</script>".data⟩) :=
  C6_length_check_first _ 5 (by decide)

/-- C3: whatever the sanitizer accepts it returns verbatim, and a text
within the length bound none of whose normalized variants has a catalog
hit is accepted unchanged (with no event emitted): the only two outcomes
are accept-verbatim and reject-with-violation. -/
theorem C3_accept_verbatim :
    (∀ (text : List Char) (max_length : Nat) (r : List Char),
        (sanitize_input text max_length).2 = .ok r → r = text)
  ∧ (∀ (text : List Char) (max_length : Nat),
        text.length ≤ max_length →
        (∀ v ∈ [toLowerL text, unquoteL (toLowerL text)],
            scanVariant (toLowerL text) v = none) →
        sanitize_input text max_length = ([], .ok text)) := by
  constructor
  · intro t m r h
    by_cases h0 : t = []
    · subst h0
      simp [sanitize_input] at h
      exact h
    · by_cases h1 : m < t.length
      · simp [sanitize_input, h0, h1] at h
      · cases hs : scanVariants (toLowerL t)
            [toLowerL t, unquoteL (toLowerL t)] with
        | some hit =>
          simp [sanitize_input, h0, h1, hs] at h
        | none =>
          simp [sanitize_input, h0, h1, hs] at h
          exact h.symm
  · intro t m hlen hnone
    by_cases h0 : t = []
    · subst h0
      simp [sanitize_input]
    · have hs := scanVariants_eq_none (toLowerL t) _ hnone
      have h1 : ¬ m < t.length := by omega
      simp [sanitize_input, h0, h1, hs]

/-- Witness for C3: a harmless text is returned verbatim. -/
theorem C3_accept_verbatim_witness :
    "hello".data = "hello".data
  ∧ sanitize_input "hello".data 100 = ([], .ok "hello".data) :=
  ⟨C3_accept_verbatim.1 "hello".data 100 "hello".data (by decide),
   C3_accept_verbatim.2 "hello".data 100 (by decide) (by decide)⟩

/-- C5 counterexample: `"xunion select"` contains the substring
`union select`, is within the length bound, yet is accepted: the
catalog's `\bunion\s+select\b` requires a word boundary before `union`,
so the claim's bare-substring condition is not sufficient. -/
theorem C5_union_select_counterexample :
    containsSub (toLowerL "xunion select".data) "union select".data = true
  ∧ ("xunion select".data).length ≤ MAX_FIELD_LENGTH
  ∧ (sanitize_input "xunion select".data MAX_FIELD_LENGTH).2 =
      .ok "xunion select".data := by
  decide

/-- C5 amended: a text within the length bound whose lower-cased form
matches the catalog pattern `\bunion\s+select\b` (word-bounded, with
whitespace between the keywords) and matches no XSS pattern is rejected
with `SQL_INJECTION_VIOLATION`.  (The lower-cased form is lower-cased
once more by the scan, which models `re.IGNORECASE`.) -/
theorem C5_union_select_amended :
    ∀ (text : List Char) (max_length : Nat),
      text.length ≤ max_length →
      firstMatchIdx DANGEROUS_PATTERNS (toLowerL (toLowerL text)) = none →
      rxSearch unionSelectRx (toLowerL (toLowerL text)) = true →
      (sanitize_input text max_length).2 =
        .error ⟨.SQL_INJECTION_VIOLATION, text⟩ := by
  intro t m hlen hx hsql
  have h0 : t ≠ [] := by
    intro e
    subst e
    exact absurd hsql (by decide)
  have h1 : ¬ m < t.length := by omega
  have hfm : firstMatchIdx SQL_PATTERNS (toLowerL (toLowerL t)) = some 0 := by
    simp [SQL_PATTERNS, firstMatchIdx, hsql]
  have hsv : scanVariant (toLowerL t) (toLowerL t) = some ⟨.sqli, 0, false⟩ := by
    simp [scanVariant, hx, hfm]
  simp [sanitize_input, h0, h1, scanVariants, hsv, catViolation]

/-- Witness for C5 (amended): `"union select"` is rejected as SQL
injection. -/
theorem C5_union_select_amended_witness :
    (sanitize_input "union select".data 100).2 =
      .error ⟨.SQL_INJECTION_VIOLATION, "union select".data⟩ :=
  C5_union_select_amended "union select".data 100 (by decide) (by decide)
    (by decide)

set_option maxRecDepth 4000 in
/-- C7: `validate_api_key` returns true exactly for keys of 8–128
characters with no dangerous character (`< > & ' " ; \n \r \t NUL`); in
particular the empty key, a 7-character key, a 129-character key and any
key containing `<` are rejected, and every 8–128-character alphanumeric
key is accepted.  (It is a total boolean function: it never raises.) -/
theorem C7_api_key_validation :
    (∀ k : List Char, validate_api_key k = true ↔
        (8 ≤ k.length ∧ k.length ≤ 128 ∧ ∀ c ∈ k, c ∉ dangerous_chars))
  ∧ (∀ k : List Char, 8 ≤ k.length → k.length ≤ 128 →
        (∀ c ∈ k, c.isAlphanum = true) → validate_api_key k = true)
  ∧ (∀ k : List Char, '<' ∈ k → validate_api_key k = false)
  ∧ (validate_api_key [] = false ∧ validate_api_key "abcdefg".data = false ∧
      validate_api_key (List.replicate 129 'a') = false) := by
  refine ⟨validate_api_key_spec, ?_, ?_, by decide, by decide, by decide⟩
  · intro k h8 h128 haln
    rw [validate_api_key_spec]
    refine ⟨h8, h128, fun c hc hcd => ?_⟩
    have h1 := haln c hc
    have h2 := dangerous_not_alphanum c hcd
    rw [h1] at h2
    cases h2
  · intro k hk
    cases hv : validate_api_key k with
    | false => rfl
    | true =>
      have := (validate_api_key_spec k).mp hv
      exact absurd (by decide : '<' ∈ dangerous_chars) (this.2.2 '<' hk)

/-- Witness for C7: a concrete alphanumeric key is accepted, and a key
containing `<` is rejected. -/
theorem C7_api_key_validation_witness :
    validate_api_key "abcd1234".data = true
  ∧ validate_api_key "abcd<efg".data = false :=
  ⟨C7_api_key_validation.2.1 "abcd1234".data (by decide) (by decide)
      (by decide),
   C7_api_key_validation.2.2.1 "abcd<efg".data (by decide)⟩

/-- C8: the token validator succeeds exactly on non-empty tokens of
10–2048 characters with exactly two dot separators; the result depends
on nothing else, so segment contents are never decoded or verified. -/
theorem C8_token_structure :
    ∀ token : List Char,
      securityManager_validate_token token = true ↔
        (token ≠ [] ∧ 10 ≤ token.length ∧ token.length ≤ 2048 ∧
          token.count '.' = 2) := by
  intro tok
  have hsplit := splitOnDot_length tok
  unfold securityManager_validate_token validate_jwt_token
  split_ifs with h1 h2 h3 h4
  · subst h1
    simp
  · simp only [Bool.false_eq_true, false_iff]
    rintro ⟨-, hb, -, -⟩
    omega
  · simp only [Bool.false_eq_true, false_iff]
    rintro ⟨-, -, hb, -⟩
    omega
  · simp only [Bool.false_eq_true, false_iff]
    rintro ⟨-, -, -, hc⟩
    omega
  · simp only [true_iff]
    exact ⟨h1, by omega, by omega, by omega⟩

/-- C9 counterexample: an over-long input raises a `LENGTH_VIOLATION`
with no security event emitted at all, so not every violation is
preceded by an event. -/
theorem C9_length_no_event_counterexample :
    (sanitize_input "aaaaaaa".data 5).2 =
      .error ⟨.LENGTH_VIOLATION, "aaaaaaa".data⟩
  ∧ (sanitize_input "aaaaaaa".data 5).1 = [] := by
  decide

/-- C9 amended: an XSS or SQL-injection violation is always preceded by
exactly one structured event of the matching type, while a length
violation emits no event. -/
theorem C9_event_emission_amended :
    ∀ (text : List Char) (max_length : Nat) (v : SecurityViolation),
      (sanitize_input text max_length).2 = .error v →
      ((v.violation_type = .XSS_VIOLATION →
          ∃ e, (sanitize_input text max_length).1 = [e] ∧
            e.event_type = "XSS_ATTEMPT")
      ∧ (v.violation_type = .SQL_INJECTION_VIOLATION →
          ∃ e, (sanitize_input text max_length).1 = [e] ∧
            e.event_type = "SQL_INJECTION_ATTEMPT")
      ∧ (v.violation_type = .LENGTH_VIOLATION →
          (sanitize_input text max_length).1 = [])) := by
  intro t m v h
  by_cases h0 : t = []
  · simp [sanitize_input, h0] at h
  · by_cases h1 : m < t.length
    · have hv : v = ⟨.LENGTH_VIOLATION, t⟩ := by
        simp [sanitize_input, h0, h1] at h
        exact h.symm
      subst hv
      refine ⟨fun habs => ViolationType.noConfusion habs,
        fun habs => ViolationType.noConfusion habs, fun _ => ?_⟩
      simp [sanitize_input, h0, h1]
    · cases hs : scanVariants (toLowerL t)
          [toLowerL t, unquoteL (toLowerL t)] with
      | none =>
        simp [sanitize_input, h0, h1, hs] at h
      | some hit =>
        have hv : v = ⟨catViolation hit.cat, t⟩ := by
          simp [sanitize_input, h0, h1, hs] at h
          exact h.symm
        subst hv
        have hev : (sanitize_input t m).1 =
            [⟨catEventType hit.cat, hit.pattern_index, hit.decoded⟩] := by
          simp [sanitize_input, h0, h1, hs]
        cases hc : hit.cat with
        | xss =>
          rw [hc] at hev
          exact ⟨fun _ => ⟨_, hev, rfl⟩,
            fun habs => ViolationType.noConfusion habs,
            fun habs => ViolationType.noConfusion habs⟩
        | sqli =>
          rw [hc] at hev
          exact ⟨fun habs => ViolationType.noConfusion habs,
            fun _ => ⟨_, hev, rfl⟩,
            fun habs => ViolationType.noConfusion habs⟩

/-- Witness for C9 (amended): an XSS rejection comes with its event. -/
theorem C9_event_emission_amended_witness :
    (sanitize_input "<iframe src=x>".data 100).1 ≠ [] := by
  have h := (C9_event_emission_amended "<iframe src=x>".data 100
      ⟨.XSS_VIOLATION, "<iframe src=x>".data⟩ (by decide)).1 rfl
  obtain ⟨e, he, -⟩ := h
  simp [he]

/-- C10: any text within the length bound whose lower-cased form
contains the substring `%3e` is rejected with `XSS_VIOLATION`: the
URL-encoded `>` alone is an XSS indicator in the shipped catalog. -/
theorem C10_percent3e_flags_xss :
    ∀ (text : List Char) (max_length : Nat),
      containsSub (toLowerL text) "%3e".data = true →
      text.length ≤ max_length →
      (sanitize_input text max_length).2 = .error ⟨.XSS_VIOLATION, text⟩ := by
  intro t m hsub hlen
  have h0 : t ≠ [] := by
    intro e
    subst e
    exact absurd hsub (by decide)
  have h1 : ¬ m < t.length := by omega
  have hsub2 : containsSub (toLowerL (toLowerL t)) "%3e".data = true := by
    have h := containsSub_map Char.toLower (toLowerL t) "%3e".data hsub
    rwa [show ("%3e".data).map Char.toLower = "%3e".data from by decide] at h
  have hsearch : rxSearch percent3eRx (toLowerL (toLowerL t)) = true :=
    rxSearch_lit_of_containsSub _ _ hsub2
  have hmem : percent3eRx ∈ DANGEROUS_PATTERNS := by
    simp [DANGEROUS_PATTERNS]
  have hsome := firstMatchIdx_isSome_of_mem hmem hsearch
  obtain ⟨i, hi⟩ := Option.isSome_iff_exists.mp hsome
  have hsv : scanVariant (toLowerL t) (toLowerL t) = some ⟨.xss, i, false⟩ := by
    simp [scanVariant, hi]
  simp [sanitize_input, h0, h1, scanVariants, hsv, catViolation]

/-- Witness for C10: `"a%3Eb"` is rejected as XSS. -/
theorem C10_percent3e_flags_xss_witness :
    (sanitize_input "a%3Eb".data 100).2 =
      .error ⟨.XSS_VIOLATION, "a%3Eb".data⟩ :=
  C10_percent3e_flags_xss "a%3Eb".data 100 (by decide) (by decide)

end SecurityGate
